import Mathlib

/-!
Verification of the conversation/message store of a browser messaging
client (src/src/stores/chat.ts) against its natural-language design spec.

The store is embedded shallowly: its in-memory state (`StoreState`) mirrors
the `ChatState` record, each asynchronous action becomes a pure function
taking the outcome of its remote calls as an explicit oracle argument, and
the remote write operations it issues (inserts and updates sent to the data
service) are collected into an explicit trace of `RemoteCall` values.
-/

namespace SupaChatFlow

/-- Joined sender display info (interface UserProfile in src/src/types/index.ts). -/
structure UserProfile where
  id : String
  display_name : Option String
  avatar_url : Option String
  deriving DecidableEq, Repr

/-- A message row, as held in the store (interface Message in src/src/types/index.ts;
attachment payloads, reply previews and reactions are opaque to every store
operation and are omitted). -/
structure Message where
  id : String
  chat_id : String
  sender_id : String
  text : Option String
  type : String
  reply_to : Option String
  edited : Bool
  deleted : Bool
  created_at : String
  sender : Option UserProfile
  deriving DecidableEq, Repr

/-- A chat membership row (interface ChatParticipant in src/src/types/index.ts). -/
structure ChatParticipant where
  chat_id : String
  user_id : String
  is_admin : Bool
  joined_at : String
  deriving DecidableEq, Repr

/-- A chat row annotated with its participants (interface Chat in src/src/types/index.ts). -/
structure Chat where
  id : String
  type : String
  name : Option String
  created_by : String
  created_at : String
  updated_at : String
  participants : List ChatParticipant
  deriving DecidableEq, Repr

/-- An ephemeral typing indicator (interface TypingIndicator in src/src/types/index.ts). -/
structure TypingIndicator where
  user_id : String
  chat_id : String
  deriving DecidableEq, Repr

/-- The store's in-memory state: the fields of `ChatState` in chat.ts.
`messages` models the `Record<string, Message[]>` keyed by chat id as an
association list with unique keys. -/
structure StoreState where
  chats : List Chat
  activeChat : Option Chat
  messages : List (String × List Message)
  typingUsers : List TypingIndicator
  loading : Bool
  error : Option String
  deriving DecidableEq, Repr

/-- The initial state of the store (the literal passed to `create` in chat.ts). -/
def initialState : StoreState :=
  { chats := [], activeChat := none, messages := [], typingUsers := [],
    loading := false, error := none }

/-- Read a key of the message record: `state.messages[chatId]`. -/
def msgsGet : List (String × List Message) → String → Option (List Message)
  | [], _ => none
  | p :: rest, k => if p.1 = k then some p.2 else msgsGet rest k

/-- Read a key of the message record with the JS default: `state.messages[chatId] || []`. -/
def msgsGetD (m : List (String × List Message)) (k : String) : List Message :=
  (msgsGet m k).getD []

/-- Write one key of the message record, leaving all other keys as they are:
the object spread `{ ...state.messages, [chatId]: v }`. -/
def msgsSet : List (String × List Message) → String → List Message →
    List (String × List Message)
  | [], k, v => [(k, v)]
  | p :: rest, k, v => if p.1 = k then (k, v) :: rest else p :: msgsSet rest k v

/-- A remote write issued by the store to the data service.  Read-only
queries are modelled as oracle arguments to the operations instead. -/
inductive RemoteCall where
  | insertMessage (chat_id sender_id : String) (text : String) (reply_to : Option String)
  | updateChatTimestamp (chat_id : String)
  | insertChat (type : String) (name : Option String) (created_by : String)
  | insertParticipants (rows : List (String × String × Option Bool))
  deriving DecidableEq, Repr

/-- clearError in chat.ts: `set({ error: null })`. -/
def clearError (st : StoreState) : StoreState :=
  { st with error := none }

/-- setActiveChat in chat.ts: `set({ activeChat: chat })`. -/
def setActiveChat (st : StoreState) (chat : Option Chat) : StoreState :=
  { st with activeChat := chat }

/-- The synchronous first step of fetchChats in chat.ts, executed before the
remote query is awaited: `set({ loading: true, error: null })`. -/
def fetchChatsStart (st : StoreState) : StoreState :=
  { st with loading := true, error := none }

/-- The continuation of fetchChats after its remote query resolves: on error
`set({ loading: false, error: error.message })`, otherwise the transformed
chat list replaces the collection and `set({ chats, loading: false })`. -/
def fetchChatsFinish (st : StoreState) (remote : Except String (List Chat)) : StoreState :=
  match remote with
  | Except.error msg => { st with loading := false, error := some msg }
  | Except.ok chats => { st with chats := chats, loading := false }

/-- fetchChats in chat.ts, with the outcome of the remote chats query passed
as the `remote` oracle. -/
def fetchChats (st : StoreState) (remote : Except String (List Chat)) : StoreState :=
  fetchChatsFinish (fetchChatsStart st) remote

/-- fetchMessages in chat.ts, with the outcome of the remote messages query
passed as the `remote` oracle: on error `set({ error: error.message })`,
otherwise `set(messages: { ...state.messages, [chatId]: messages })`. -/
def fetchMessages (st : StoreState) (chatId : String)
    (remote : Except String (List Message)) : StoreState :=
  match remote with
  | Except.error msg => { st with error := some msg }
  | Except.ok messages => { st with messages := msgsSet st.messages chatId messages }

/-- sendMessage in chat.ts.  `user` is the result of `supabase.auth.getUser()`
(the current user's id, if any); `insertError` is the outcome of the message
insert (`some msg` when the insert fails).  Returns the new state together
with the trace of remote writes issued. -/
def sendMessage (user : Option String) (st : StoreState) (chatId text : String)
    (replyTo : Option String) (insertError : Option String) :
    StoreState × List RemoteCall :=
  match user with
  | none => (st, [])
  | some uid =>
    match insertError with
    | some msg => ({ st with error := some msg },
        [RemoteCall.insertMessage chatId uid text replyTo])
    | none => (st,
        [RemoteCall.insertMessage chatId uid text replyTo,
         RemoteCall.updateChatTimestamp chatId])

/-- One row of the pre-check query in createDirectChat: a chat id together
with the user ids of its participants (`select id, chat_participants(user_id)`
filtered to `type = 'direct'` by the data service). -/
structure DirectChatRow where
  id : String
  participant_ids : List String
  deriving DecidableEq, Repr

/-- The result value of createDirectChat / createGroupChat:
`{ chatId?: string; error?: string }`. -/
inductive CreateResult where
  | chatId (id : String)
  | error (msg : String)
  deriving DecidableEq, Repr

/-- The predicate of the `.find` in createDirectChat: the row's participant
ids include the current user and the target user and number exactly 2. -/
def qualifies (uid userId : String) (c : DirectChatRow) : Bool :=
  (c.participant_ids.contains uid && c.participant_ids.contains userId) &&
    c.participant_ids.length == 2

/-- createDirectChat in chat.ts.  `user` is the current user id oracle,
`existingChats` the rows returned by the pre-check query over direct chats,
`chatInsert` the outcome of the chat insert (the new chat's id on success)
and `participantInsert` the outcome of the participants insert.  Returns
the result value and the trace of remote writes issued. -/
def createDirectChat (user : Option String) (userId : String)
    (existingChats : List DirectChatRow)
    (chatInsert : Except String String) (participantInsert : Option String) :
    CreateResult × List RemoteCall :=
  match user with
  | none => (CreateResult.error "Not authenticated", [])
  | some uid =>
    match existingChats.find? (fun c => qualifies uid userId c) with
    | some directChat => (CreateResult.chatId directChat.id, [])
    | none =>
      match chatInsert with
      | Except.error msg => (CreateResult.error msg,
          [RemoteCall.insertChat "direct" none uid])
      | Except.ok newId =>
        match participantInsert with
        | some msg => (CreateResult.error msg,
            [RemoteCall.insertChat "direct" none uid,
             RemoteCall.insertParticipants
               [(newId, uid, none), (newId, userId, none)]])
        | none => (CreateResult.chatId newId,
            [RemoteCall.insertChat "direct" none uid,
             RemoteCall.insertParticipants
               [(newId, uid, none), (newId, userId, none)]])

/-- createGroupChat in chat.ts, with the same oracle conventions as
createDirectChat: inserts a group chat owned by the current user, then one
batched participant insert with the creator as admin and every id of
`userIds` as non-admin. -/
def createGroupChat (user : Option String) (name : String) (userIds : List String)
    (chatInsert : Except String String) (participantInsert : Option String) :
    CreateResult × List RemoteCall :=
  match user with
  | none => (CreateResult.error "Not authenticated", [])
  | some uid =>
    match chatInsert with
    | Except.error msg => (CreateResult.error msg,
        [RemoteCall.insertChat "group" (some name) uid])
    | Except.ok newId =>
      let participants : List (String × String × Option Bool) :=
        (newId, uid, some true) :: userIds.map (fun u => (newId, u, some false))
      match participantInsert with
      | some msg => (CreateResult.error msg,
          [RemoteCall.insertChat "group" (some name) uid,
           RemoteCall.insertParticipants participants])
      | none => (CreateResult.chatId newId,
          [RemoteCall.insertChat "group" (some name) uid,
           RemoteCall.insertParticipants participants])

/-- The insert-event callback installed by subscribeToChat(chatId) in
chat.ts.  `fetched` is the outcome of the per-event re-fetch of the complete
message row (`none` when the fetch returns no row): when a row arrives it is
appended to that chat's list, `[...(state.messages[chatId] || []), message]`. -/
def subscribeToChatHandler (st : StoreState) (chatId : String)
    (fetched : Option Message) : StoreState :=
  match fetched with
  | none => st
  | some message =>
    { st with messages :=
        msgsSet st.messages chatId (msgsGetD st.messages chatId ++ [message]) }

/-- The Boolean test used by both typing mutations in chat.ts:
`t.chat_id === chatId && t.user_id === userId`. -/
def typingMatches (chatId userId : String) (t : TypingIndicator) : Bool :=
  t.chat_id == chatId && t.user_id == userId

/-- addTypingUser in chat.ts: filter out any entry for the pair, then append
a fresh entry for it. -/
def addTypingUser (st : StoreState) (chatId userId : String) : StoreState :=
  { st with typingUsers :=
      st.typingUsers.filter (fun t => !(typingMatches chatId userId t)) ++
        [{ user_id := userId, chat_id := chatId }] }

/-- removeTypingUser in chat.ts: filter out any entry for the pair. -/
def removeTypingUser (st : StoreState) (chatId userId : String) : StoreState :=
  { st with typingUsers :=
      st.typingUsers.filter (fun t => !(typingMatches chatId userId t)) }

/-! ### Helper lemmas on the message record -/

theorem msgsGet_msgsSet_self (m : List (String × List Message)) (k : String)
    (v : List Message) : msgsGet (msgsSet m k v) k = some v := by
  induction m with
  | nil => simp [msgsSet, msgsGet]
  | cons p rest ih =>
    by_cases h : p.1 = k
    · simp [msgsSet, msgsGet, h]
    · simp [msgsSet, msgsGet, h, ih]

theorem msgsGet_msgsSet_other (m : List (String × List Message)) (k k' : String)
    (v : List Message) (h : k' ≠ k) : msgsGet (msgsSet m k v) k' = msgsGet m k' := by
  have hkk : ¬ k = k' := fun hk => h hk.symm
  induction m with
  | nil => simp [msgsSet, msgsGet, hkk]
  | cons p rest ih =>
    by_cases hp : p.1 = k
    · simp [msgsSet, msgsGet, hp, hkk]
    · simp [msgsSet, msgsGet, hp, ih]

/-! ### Sample values used by concrete witnesses and counterexamples -/

/-- A concrete message row. -/
def sampleMsg : Message :=
  { id := "m1", chat_id := "c1", sender_id := "u1", text := some "hi",
    type := "text", reply_to := none, edited := false, deleted := false,
    created_at := "t0", sender := none }

/-- A second concrete message row with a distinct id. -/
def sampleMsg2 : Message :=
  { id := "m2", chat_id := "c1", sender_id := "u2", text := some "yo",
    type := "text", reply_to := none, edited := false, deleted := false,
    created_at := "t1", sender := none }

/-- A concrete store state holding one message under chat "c1". -/
def sampleState : StoreState :=
  { chats := [], activeChat := none, messages := [("c1", [sampleMsg])],
    typingUsers := [], loading := false, error := none }

/-! ### Claims C2, C4, C9, C10 : sendMessage and fetchChats -/

/-- Claim C2, counterexample: with no authenticated user, `sendMessage`
returns the state completely unchanged — in particular its error field is
still `none` — and issues no remote write; no `NotAuthenticatedError` (nor
any other failure signal) is surfaced anywhere, so the claim that the call
"fails with NotAuthenticatedError" is false. -/
theorem claimC2_counterexample :
    sendMessage none sampleState "c1" "hello" none none = (sampleState, []) ∧
    (sendMessage none sampleState "c1" "hello" none none).1.error = none := by
  exact ⟨rfl, rfl⟩

/-- Claim C2 (amended): with no authenticated user, `sendMessage` performs
zero remote data-service calls (no message insert and no chat timestamp
update) and returns with the store state unchanged; it does not surface a
NotAuthenticatedError or any other error. -/
theorem claimC2_amended (st : StoreState) (chatId text : String)
    (replyTo : Option String) (insertError : Option String) :
    sendMessage none st chatId text replyTo insertError = (st, []) := rfl

/-- Claim C4: if the remote fetch inside loadChats fails, the in-memory chat
collection (and the message record) is exactly what it was before the call,
and the surfaced error field carries the failure message. -/
theorem claimC4 (st : StoreState) (msg : String) :
    (fetchChats st (Except.error msg)).chats = st.chats ∧
    (fetchChats st (Except.error msg)).error = some msg ∧
    (fetchChats st (Except.error msg)).messages = st.messages := by
  exact ⟨rfl, rfl, rfl⟩

/-- Claim C9: when the message insert of `sendMessage` fails, the shared
error field is set to the failure message and the trace contains only the
insert — no timestamp update is issued; when the insert succeeds, the
timestamp update is issued right after it. -/
theorem claimC9 (uid : String) (st : StoreState) (chatId text : String)
    (replyTo : Option String) :
    (∀ msg, sendMessage (some uid) st chatId text replyTo (some msg) =
      ({ st with error := some msg },
       [RemoteCall.insertMessage chatId uid text replyTo])) ∧
    sendMessage (some uid) st chatId text replyTo none =
      (st, [RemoteCall.insertMessage chatId uid text replyTo,
            RemoteCall.updateChatTimestamp chatId]) := by
  exact ⟨fun msg => rfl, rfl⟩

/-- Claim C10: fetchChats factors through a synchronous start step run before
the remote fetch, and that start step sets loading to true and clears the
shared error field to none while leaving chats and messages untouched — so a
previously surfaced error is erased as soon as a refresh starts, whatever
happens to the fetch afterwards. -/
theorem claimC10 (st : StoreState) :
    (fetchChatsStart st).loading = true ∧
    (fetchChatsStart st).error = none ∧
    (fetchChatsStart st).chats = st.chats ∧
    (fetchChatsStart st).messages = st.messages ∧
    (∀ remote, fetchChats st remote = fetchChatsFinish (fetchChatsStart st) remote) := by
  exact ⟨rfl, rfl, rfl, rfl, fun remote => rfl⟩

/-! ### Claims C5, C6 : fetchMessages -/

/-- Claim C5, counterexample: the error state left by a failing
`fetchMessages` is not scoped per chat.  A failure for chat "c1" followed by
a failure for chat "c2" produces exactly the state a lone "c2" failure
would: the "c1" failure leaves no trace of its own, and a later failing
`fetchChats` overwrites the very same shared field. -/
theorem claimC5_counterexample :
    fetchMessages (fetchMessages sampleState "c1" (Except.error "e1")) "c2"
        (Except.error "e2") =
      fetchMessages sampleState "c2" (Except.error "e2") ∧
    (fetchMessages sampleState "c1" (Except.error "e1")).error = some "e1" ∧
    (fetchChats (fetchMessages sampleState "c1" (Except.error "e1"))
        (Except.error "e3")).error = some "e3" := by
  exact ⟨rfl, rfl, rfl⟩

/-- Claim C5 (amended): when the remote fetch inside loadMessages(chatId)
fails, the failure message is written to the single shared error field used
by every operation (a later failure, for any chat or from fetchChats,
overwrites it — last write wins); no per-chat error state exists, and the
chat list and message record are untouched. -/
theorem claimC5_amended (st : StoreState) (chatId msg : String) :
    (fetchMessages st chatId (Except.error msg)).error = some msg ∧
    (fetchMessages st chatId (Except.error msg)).messages = st.messages ∧
    (fetchMessages st chatId (Except.error msg)).chats = st.chats ∧
    (∀ chatId2 msg2, fetchMessages (fetchMessages st chatId (Except.error msg))
        chatId2 (Except.error msg2) =
      fetchMessages st chatId2 (Except.error msg2)) ∧
    (∀ msg2, (fetchChats (fetchMessages st chatId (Except.error msg))
        (Except.error msg2)).error = some msg2) := by
  exact ⟨rfl, rfl, rfl, fun chatId2 msg2 => rfl, fun msg2 => rfl⟩

/-- Claim C6: a successful loadMessages(chatId) replaces the message list
stored under chatId entirely with the fetched result, and the list stored
under every other key is unchanged (the chat collection too). -/
theorem claimC6 (st : StoreState) (chatId : String) (msgs : List Message) :
    msgsGet (fetchMessages st chatId (Except.ok msgs)).messages chatId = some msgs ∧
    (∀ k, k ≠ chatId →
      msgsGet (fetchMessages st chatId (Except.ok msgs)).messages k =
        msgsGet st.messages k) ∧
    (fetchMessages st chatId (Except.ok msgs)).chats = st.chats := by
  refine ⟨?_, ?_, rfl⟩
  · exact msgsGet_msgsSet_self st.messages chatId msgs
  · intro k hk
    exact msgsGet_msgsSet_other st.messages chatId k msgs hk

/-- Claim C6, witness: replacing chat "c1" of the sample state leaves the
list under "c2" as it was. -/
theorem claimC6_witness :
    msgsGet (fetchMessages sampleState "c1" (Except.ok [sampleMsg2])).messages "c1" =
      some [sampleMsg2] ∧
    msgsGet (fetchMessages sampleState "c1" (Except.ok [sampleMsg2])).messages "c2" =
      msgsGet sampleState.messages "c2" :=
  ⟨(claimC6 sampleState "c1" [sampleMsg2]).1,
   (claimC6 sampleState "c1" [sampleMsg2]).2.1 "c2" (by decide)⟩

/-! ### Claim C1 : the subscribeToChat insert handler -/

/-- Claim C1, counterexample: the handler appends the re-fetched row without
any check on its id.  With `sampleMsg` (id "m1") already stored under "c1",
an event whose re-fetch returns that same row leaves the list with the id
"m1" twice — the handler does introduce duplicate message ids. -/
theorem claimC1_counterexample :
    (msgsGetD sampleState.messages "c1").map Message.id = ["m1"] ∧
    (msgsGetD (subscribeToChatHandler sampleState "c1" (some sampleMsg)).messages
        "c1").map Message.id = ["m1", "m1"] := by
  exact ⟨rfl, rfl⟩

/-- Claim C1 (amended): on each insert event whose re-fetch returns a row,
the handler appends that row to the chat's in-memory message list
unconditionally — there is no presence-by-id check, so a row whose id is
already in the list is appended again (duplicate ids can be introduced);
other chats' lists are untouched. -/
theorem claimC1_amended (st : StoreState) (chatId : String) (m : Message) :
    msgsGetD (subscribeToChatHandler st chatId (some m)).messages chatId =
      msgsGetD st.messages chatId ++ [m] ∧
    (∀ k, k ≠ chatId →
      msgsGet (subscribeToChatHandler st chatId (some m)).messages k =
        msgsGet st.messages k) := by
  constructor
  · show msgsGetD (msgsSet st.messages chatId (msgsGetD st.messages chatId ++ [m]))
        chatId = msgsGetD st.messages chatId ++ [m]
    unfold msgsGetD
    rw [msgsGet_msgsSet_self]
    rfl
  · intro k hk
    exact msgsGet_msgsSet_other st.messages chatId k _ hk

/-- Claim C1 (amended), witness: appending a fresh row to "c1" of the sample
state appends it at the end and leaves "c2" untouched. -/
theorem claimC1_amended_witness :
    msgsGetD (subscribeToChatHandler sampleState "c1" (some sampleMsg2)).messages
        "c1" = msgsGetD sampleState.messages "c1" ++ [sampleMsg2] ∧
    msgsGet (subscribeToChatHandler sampleState "c1" (some sampleMsg2)).messages
        "c2" = msgsGet sampleState.messages "c2" :=
  ⟨(claimC1_amended sampleState "c1" sampleMsg2).1,
   (claimC1_amended sampleState "c1" sampleMsg2).2 "c2" (by decide)⟩

/-! ### Claim C7 : createGroupChat -/

/-- Claim C7: a successful createGroupChat by user uid issues exactly one
chat insert — kind group, the given name, created_by uid — followed by
exactly one batched participant insert holding (uid, admin true) and
(u, admin false) for every u in userIds, and returns the new chat's id. -/
theorem claimC7 (uid name newId : String) (userIds : List String) :
    createGroupChat (some uid) name userIds (Except.ok newId) none =
      (CreateResult.chatId newId,
       [RemoteCall.insertChat "group" (some name) uid,
        RemoteCall.insertParticipants
          ((newId, uid, some true) ::
            userIds.map (fun u => (newId, u, some false)))]) := rfl

/-! ### Claim C3 : createDirectChat pre-check idempotence -/

theorem find?_eq_of_unique {α : Type} (p : α → Bool) (l : List α) (c : α)
    (hc : c ∈ l) (hq : p c = true)
    (huniq : ∀ c', c' ∈ l → p c' = true → c' = c) : l.find? p = some c := by
  induction l with
  | nil => cases hc
  | cons a t ih =>
    by_cases ha : p a = true
    · have hac : a = c := huniq a (List.mem_cons_self a t) ha
      subst hac
      simp [List.find?, ha]
    · have hct : c ∈ t := by
        rcases List.mem_cons.mp hc with h1 | h1
        · exact absurd (h1 ▸ hq) ha
        · exact h1
      have huniq' : ∀ c', c' ∈ t → p c' = true → c' = c :=
        fun c' hmem hpc => huniq c' (List.mem_cons_of_mem a hmem) hpc
      simp [List.find?, ha, ih hct huniq']

/-- The pre-check predicate is symmetric in the two user ids. -/
theorem qualifies_symm (A B : String) (c : DirectChatRow) :
    qualifies A B c = qualifies B A c := by
  unfold qualifies
  cases hA : c.participant_ids.contains A <;>
    cases hB : c.participant_ids.contains B <;> simp

/-- Claim C3: if the pre-check rows contain a (unique) direct chat whose
participant set has size exactly 2 and holds both the caller A and the
target B, then createDirectChat returns that chat's id and issues no chat
or participant insert, and the call with the pair reversed (caller B,
target A) returns the same id, also without inserts. -/
theorem claimC3 (A B : String) (rows : List DirectChatRow)
    (chatInsert : Except String String) (participantInsert : Option String)
    (c : DirectChatRow) (hc : c ∈ rows) (hq : qualifies A B c = true)
    (huniq : ∀ c', c' ∈ rows → qualifies A B c' = true → c' = c) :
    createDirectChat (some A) B rows chatInsert participantInsert =
      (CreateResult.chatId c.id, []) ∧
    createDirectChat (some B) A rows chatInsert participantInsert =
      (CreateResult.chatId c.id, []) := by
  have hAB : rows.find? (fun r => qualifies A B r) = some c :=
    find?_eq_of_unique _ rows c hc hq huniq
  have hBA : rows.find? (fun r => qualifies B A r) = some c := by
    have : (fun r => qualifies B A r) = (fun r => qualifies A B r) := by
      funext r
      exact (qualifies_symm A B r).symm
    rw [this]
    exact hAB
  constructor
  · simp [createDirectChat, hAB]
  · simp [createDirectChat, hBA]

/-- A concrete pre-check result: the direct chat "c1" between u1 and u2,
and another direct chat "c2" between u1 and u3. -/
def sampleRows : List DirectChatRow :=
  [{ id := "c1", participant_ids := ["u1", "u2"] },
   { id := "c2", participant_ids := ["u1", "u3"] }]

/-- Claim C3, witness: with chats {u1,u2} and {u1,u3} present, u1 asking for
a direct chat with u2 gets "c1" back with no inserts, and so does u2 asking
for u1. -/
theorem claimC3_witness :
    createDirectChat (some "u1") "u2" sampleRows (Except.ok "cX") none =
      (CreateResult.chatId "c1", []) ∧
    createDirectChat (some "u2") "u1" sampleRows (Except.ok "cX") none =
      (CreateResult.chatId "c1", []) :=
  claimC3 "u1" "u2" sampleRows (Except.ok "cX") none
    { id := "c1", participant_ids := ["u1", "u2"] }
    (by decide) (by decide) (by decide)

/-! ### Claim C8 : typing-indicator mutations -/

/-- One call to a typing mutation of the store. -/
inductive TypingOp where
  | add (chatId userId : String)
  | remove (chatId userId : String)
  deriving DecidableEq, Repr

/-- Dispatch one typing mutation. -/
def applyTypingOp (st : StoreState) : TypingOp → StoreState
  | TypingOp.add c u => addTypingUser st c u
  | TypingOp.remove c u => removeTypingUser st c u

/-- Run a sequence of typing mutations left to right. -/
def runTypingOps (st : StoreState) (ops : List TypingOp) : StoreState :=
  ops.foldl applyTypingOp st

/-- Membership of a (chatId, userId) pair in the store's typing set. -/
def typingMem (st : StoreState) (c u : String) : Bool :=
  st.typingUsers.any (typingMatches c u)

/-- Spec-side semantics of one step, on a bare membership function:
add = insert-or-replace (membership becomes true for that pair),
remove = delete-if-present (membership becomes false, a no-op if absent). -/
def specTypingStep (mem : String → String → Bool) : TypingOp → String → String → Bool
  | TypingOp.add c u, c', u' => if c' = c ∧ u' = u then true else mem c' u'
  | TypingOp.remove c u, c', u' => if c' = c ∧ u' = u then false else mem c' u'

/-- Spec-side replay of a whole sequence on a membership function. -/
def specReplay (mem : String → String → Bool) (ops : List TypingOp) :
    String → String → Bool :=
  ops.foldl specTypingStep mem

/-- Number of entries of the typing list matching one (chatId, userId) pair. -/
def pairCount (l : List TypingIndicator) (c u : String) : Nat :=
  l.countP (typingMatches c u)

/-- The at-most-one-entry-per-pair invariant of the typing list. -/
def AtMostOne (l : List TypingIndicator) : Prop :=
  ∀ c u, pairCount l c u ≤ 1

theorem typingMatches_eq_true {c u : String} {t : TypingIndicator} :
    typingMatches c u t = true ↔ t.chat_id = c ∧ t.user_id = u := by
  simp [typingMatches]

theorem typingMatches_disjoint {c u c' u' : String} (h : ¬(c' = c ∧ u' = u)) :
    ∀ t, typingMatches c' u' t = true → typingMatches c u t = false := by
  intro t hp
  rcases typingMatches_eq_true.mp hp with ⟨h1, h2⟩
  cases hq : typingMatches c u t
  · rfl
  · rcases typingMatches_eq_true.mp hq with ⟨h3, h4⟩
    exact absurd ⟨by rw [← h1, h3], by rw [← h2, h4]⟩ h

theorem any_filter_not {α : Type} (p q : α → Bool) (l : List α)
    (h : ∀ t, p t = true → q t = false) :
    (l.filter (fun t => !(q t))).any p = l.any p := by
  induction l with
  | nil => rfl
  | cons a t ih =>
    cases hq : q a
    · simp [List.filter_cons, hq, ih]
    · have hp : p a = false := by
        cases hpa : p a
        · rfl
        · rw [h a hpa] at hq
          cases hq
      simp [List.filter_cons, hq, hp, ih]

theorem any_filter_self {α : Type} (q : α → Bool) (l : List α) :
    (l.filter (fun t => !(q t))).any q = false := by
  induction l with
  | nil => rfl
  | cons a t ih =>
    cases hq : q a
    · simp [List.filter_cons, hq, ih]
    · simp [List.filter_cons, hq, ih]

theorem countP_filter_not {α : Type} (q : α → Bool) (l : List α) :
    (l.filter (fun t => !(q t))).countP q = 0 := by
  induction l with
  | nil => rfl
  | cons a t ih =>
    cases hq : q a
    · simp [List.filter_cons, List.countP_cons, hq, ih]
    · simp [List.filter_cons, hq, ih]

theorem countP_filter_not_other {α : Type} (p q : α → Bool) (l : List α)
    (h : ∀ t, p t = true → q t = false) :
    (l.filter (fun t => !(q t))).countP p = l.countP p := by
  induction l with
  | nil => rfl
  | cons a t ih =>
    cases hq : q a
    · simp [List.filter_cons, List.countP_cons, hq, ih]
    · have hp : p a = false := by
        cases hpa : p a
        · rfl
        · rw [h a hpa] at hq
          cases hq
      simp [List.filter_cons, List.countP_cons, hq, hp, ih]

theorem typingMem_applyTypingOp (st : StoreState) (op : TypingOp) (c' u' : String) :
    typingMem (applyTypingOp st op) c' u' =
      specTypingStep (typingMem st) op c' u' := by
  cases op with
  | add c u =>
    by_cases h : c' = c ∧ u' = u
    · obtain ⟨h1, h2⟩ := h
      subst h1
      subst h2
      simp [applyTypingOp, addTypingUser, typingMem, specTypingStep, typingMatches]
    · have helem : typingMatches c' u' { user_id := u, chat_id := c } = false := by
        cases hq : typingMatches c' u' { user_id := u, chat_id := c }
        · rfl
        · rcases typingMatches_eq_true.mp hq with ⟨h1, h2⟩
          exact absurd ⟨h1.symm, h2.symm⟩ h
      show ((st.typingUsers.filter (fun t => !(typingMatches c u t))) ++
          [({ user_id := u, chat_id := c } : TypingIndicator)]).any (typingMatches c' u') =
        if c' = c ∧ u' = u then true else st.typingUsers.any (typingMatches c' u')
      rw [if_neg h, List.any_append]
      simp only [List.any_cons, List.any_nil, helem, Bool.or_false]
      exact any_filter_not _ _ _ (typingMatches_disjoint h)
  | remove c u =>
    by_cases h : c' = c ∧ u' = u
    · obtain ⟨h1, h2⟩ := h
      subst h1
      subst h2
      show (st.typingUsers.filter (fun t => !(typingMatches c' u' t))).any
          (typingMatches c' u') =
        if c' = c' ∧ u' = u' then false else st.typingUsers.any (typingMatches c' u')
      rw [if_pos ⟨rfl, rfl⟩]
      exact any_filter_self _ _
    · show (st.typingUsers.filter (fun t => !(typingMatches c u t))).any
          (typingMatches c' u') =
        if c' = c ∧ u' = u then false else st.typingUsers.any (typingMatches c' u')
      rw [if_neg h]
      exact any_filter_not _ _ _ (typingMatches_disjoint h)

theorem typingMem_runTypingOps (ops : List TypingOp) (st : StoreState)
    (c' u' : String) :
    typingMem (runTypingOps st ops) c' u' = specReplay (typingMem st) ops c' u' := by
  induction ops generalizing st with
  | nil => rfl
  | cons op rest ih =>
    show typingMem (runTypingOps (applyTypingOp st op) rest) c' u' =
      specReplay (specTypingStep (typingMem st) op) rest c' u'
    rw [ih (applyTypingOp st op)]
    have hmem : typingMem (applyTypingOp st op) = specTypingStep (typingMem st) op :=
      funext fun c => funext fun u => typingMem_applyTypingOp st op c u
    rw [hmem]

theorem atMostOne_applyTypingOp (st : StoreState) (hinv : AtMostOne st.typingUsers)
    (op : TypingOp) : AtMostOne (applyTypingOp st op).typingUsers := by
  intro c' u'
  cases op with
  | add c u =>
    by_cases h : c' = c ∧ u' = u
    · obtain ⟨h1, h2⟩ := h
      subst h1
      subst h2
      show ((st.typingUsers.filter (fun t => !(typingMatches c' u' t))) ++
          [({ user_id := u', chat_id := c' } : TypingIndicator)]).countP (typingMatches c' u') ≤ 1
      rw [List.countP_append, countP_filter_not]
      simp [List.countP_cons, typingMatches]
    · have helem : typingMatches c' u' { user_id := u, chat_id := c } = false := by
        cases hq : typingMatches c' u' { user_id := u, chat_id := c }
        · rfl
        · rcases typingMatches_eq_true.mp hq with ⟨h1, h2⟩
          exact absurd ⟨h1.symm, h2.symm⟩ h
      show ((st.typingUsers.filter (fun t => !(typingMatches c u t))) ++
          [({ user_id := u, chat_id := c } : TypingIndicator)]).countP (typingMatches c' u') ≤ 1
      rw [List.countP_append, countP_filter_not_other _ _ _ (typingMatches_disjoint h)]
      simp only [List.countP_cons, List.countP_nil, helem, if_false]
      simpa using hinv c' u'
  | remove c u =>
    by_cases h : c' = c ∧ u' = u
    · obtain ⟨h1, h2⟩ := h
      subst h1
      subst h2
      show (st.typingUsers.filter (fun t => !(typingMatches c' u' t))).countP
          (typingMatches c' u') ≤ 1
      rw [countP_filter_not]
      exact Nat.zero_le 1
    · show (st.typingUsers.filter (fun t => !(typingMatches c u t))).countP
          (typingMatches c' u') ≤ 1
      rw [countP_filter_not_other _ _ _ (typingMatches_disjoint h)]
      exact hinv c' u'

theorem atMostOne_runTypingOps (ops : List TypingOp) (st : StoreState)
    (hinv : AtMostOne st.typingUsers) :
    AtMostOne (runTypingOps st ops).typingUsers := by
  induction ops generalizing st with
  | nil => exact hinv
  | cons op rest ih => exact ih (applyTypingOp st op) (atMostOne_applyTypingOp st hinv op)

/-- Claim C8: from any store state whose typing list has at most one entry
per (chatId, userId) pair, replaying any sequence of addTypingUser /
removeTypingUser calls gives a typing set whose membership equals the
spec-side replay (add = insert-or-replace, remove = delete-if-present,
removing an absent entry a no-op), and after every step — every prefix of
the sequence — the list still has at most one entry per pair. -/
theorem claimC8 (st : StoreState) (hinv : AtMostOne st.typingUsers)
    (ops : List TypingOp) :
    (∀ c u, typingMem (runTypingOps st ops) c u = specReplay (typingMem st) ops c u) ∧
    (∀ pre suf, ops = pre ++ suf → AtMostOne (runTypingOps st pre).typingUsers) := by
  constructor
  · intro c u
    exact typingMem_runTypingOps ops st c u
  · intro pre suf hps
    exact atMostOne_runTypingOps pre st hinv

/-- Claim C8, witness: the initial (empty) typing list satisfies the
invariant, and the claim holds of a concrete double-add-then-remove run
from the initial state. -/
theorem claimC8_witness :
    AtMostOne initialState.typingUsers ∧
    ((∀ c u, typingMem (runTypingOps initialState
        [TypingOp.add "c1" "u1", TypingOp.add "c1" "u1", TypingOp.remove "c1" "u2"]) c u =
      specReplay (typingMem initialState)
        [TypingOp.add "c1" "u1", TypingOp.add "c1" "u1", TypingOp.remove "c1" "u2"] c u) ∧
     (∀ pre suf,
        [TypingOp.add "c1" "u1", TypingOp.add "c1" "u1", TypingOp.remove "c1" "u2"] =
          pre ++ suf →
        AtMostOne (runTypingOps initialState pre).typingUsers)) := by
  have h : AtMostOne initialState.typingUsers := by
    intro c u
    simp [initialState, pairCount]
  exact ⟨h, claimC8 initialState h
    [TypingOp.add "c1" "u1", TypingOp.add "c1" "u1", TypingOp.remove "c1" "u2"]⟩

end SupaChatFlow
